import Mathlib

/-!
# GlobalPulse AI: the generation controller of `frontend/src/App.js`

A shallow embedding of the React component `App` (its five state cells and the
asynchronous handler `generateAINews`) together with the part of the JavaScript
runtime the handler relies on: JSON values, property reads, truthiness,
`ToString`, the comparison `x > 0`, and `JSON.parse`.

The network exchange is an input of the model: `generateAINews` is a function of
the state before the click and of what `fetch` and `response.json()` produced.
-/

namespace NewsApp

/-! ## Numbers -/

/-- A JavaScript Number, that is an IEEE-754 binary64 value. `finite neg m e` is
`(-1)^neg * m * 2^e`, kept canonical: `m = 0` and `e = 0` for a zero, `m` odd otherwise. -/
inductive JsNumber where
  | finite (neg : Bool) (m : Nat) (e : Int)
  | infinity (neg : Bool)
  | nan
  deriving DecidableEq, Repr

/-- Shift trailing zero bits of the significand into the exponent. -/
def stripTwos : Nat → Nat → Int → Nat × Int
  | 0, m, e => (m, e)
  | fuel + 1, m, e => if m % 2 = 0 ∧ m ≠ 0 then stripTwos fuel (m / 2) (e + 1) else (m, e)

/-- Canonical form of `(-1)^neg * m * 2^e` for `m ≤ 2^53`. -/
def JsNumber.normalize (neg : Bool) (m : Nat) (e : Int) : JsNumber :=
  if m = 0 then .finite neg 0 0
  else
    let r := stripTwos 64 m e
    .finite neg r.1 r.2

/-- Quotient `num / den` rounded to the nearest integer, ties to the even one. -/
def roundHalfEven (num den : Nat) : Nat :=
  let q := num / den
  let r := num % den
  if 2 * r < den then q
  else if den < 2 * r then q + 1
  else if q % 2 = 0 then q else q + 1

/-- Number of binary digits of `n` (0 for 0). -/
def bitLen : Nat → Nat → Nat
  | 0, _ => 0
  | fuel + 1, n => if n = 0 then 0 else bitLen fuel (n / 2) + 1

/-- Whether `a / b ≥ 2^k`. -/
def geTwoPow (a b : Nat) (k : Int) : Bool :=
  if 0 ≤ k then decide (b * 2 ^ k.toNat ≤ a) else decide (b ≤ a * 2 ^ (-k).toNat)

/-- The binary64 value nearest to `(-1)^neg * a / b` (round to nearest, ties to even),
for `b > 0`: the rounding every JavaScript numeric literal goes through. -/
def roundRatio (neg : Bool) (a b : Nat) : JsNumber :=
  if a = 0 then .finite neg 0 0
  else
    let e0 : Int := (bitLen a a : Int) - (bitLen b b : Int)
    let e : Int := if geTwoPow a b e0 then e0 else e0 - 1
    let u : Int := max e (-1022) - 52
    let m : Nat :=
      if 0 ≤ u then roundHalfEven a (b * 2 ^ u.toNat) else roundHalfEven (a * 2 ^ (-u).toNat) b
    if 971 < u ∨ (u = 971 ∧ 2 ^ 53 ≤ m) then .infinity neg
    else JsNumber.normalize neg m u

/-- The Number denoted by the decimal numeral `(-1)^neg * mant * 10^exp10`. -/
def JsNumber.ofDecimal (neg : Bool) (mant : Nat) (exp10 : Int) : JsNumber :=
  if 0 ≤ exp10 then roundRatio neg (mant * 10 ^ exp10.toNat) 1
  else roundRatio neg mant (10 ^ (-exp10).toNat)

/-- The Number for a natural number (array and string lengths). -/
def JsNumber.ofNat (n : Nat) : JsNumber := roundRatio false n 1

/-- Whether the Number is `+0`, `-0` or `NaN`: the falsy Numbers. -/
def JsNumber.isFalsy : JsNumber → Bool
  | .finite _ m _ => m == 0
  | .infinity _ => false
  | .nan => true

/-- The comparison `x > 0` on Numbers. -/
def JsNumber.isPositive : JsNumber → Bool
  | .finite neg m _ => !neg && m != 0
  | .infinity neg => !neg
  | .nan => false

/-- Number of decimal digits of `n` (0 for 0). -/
def decLen : Nat → Nat → Nat
  | 0, _ => 0
  | fuel + 1, n => if n = 0 then 0 else decLen fuel (n / 10) + 1

/-- Whether `a / b ≥ 10^k`. -/
def geTenPow (a b : Nat) (k : Int) : Bool :=
  if 0 ≤ k then decide (b * 10 ^ k.toNat ≤ a) else decide (b ≤ a * 10 ^ (-k).toNat)

/-- Floor of `(a / b) / 10^k`. -/
def floorDivTenPow (a b : Nat) (k : Int) : Nat :=
  if 0 ≤ k then a / (b * 10 ^ k.toNat) else (a * 10 ^ (-k).toNat) / b

/-- For `s * 10^k ≤ a/b ≤ t * 10^k`, compare `a/b` with the midpoint of the two
neighbours: `lt` when the lower neighbour `s` is strictly closer, `gt` when the upper
neighbour `t` is, `eq` on a tie. -/
def compareMid (a b s t : Nat) (k : Int) : Ordering :=
  if 0 ≤ k then compare (2 * a) ((s + t) * 10 ^ k.toNat * b)
  else compare (2 * a * 10 ^ (-k).toNat) ((s + t) * b)

/-- Search, for digit counts `k = 18 - fuel, ...`, the shortest `s` of `k` digits and the
exponent `n` with `s * 10^(n-k)` rounding to the double `x = a / b`
(Number::toString, step 5 of the radix-10 algorithm). -/
def shortestDigits (x : JsNumber) (a b : Nat) (n0 : Int) : Nat → Nat → Nat × Int
  | 0, k => (floorDivTenPow a b (n0 - k), n0)
  | fuel + 1, k =>
    let lo := floorDivTenPow a b (n0 - k)
    let hi := lo + 1
    let okLo := decide (JsNumber.ofDecimal false lo (n0 - k) = x)
    let okHi := decide (JsNumber.ofDecimal false hi (n0 - k) = x)
    let pick (s : Nat) : Nat × Int := if s = 10 ^ k then (10 ^ (k - 1), n0 + 1) else (s, n0)
    if okLo && okHi then
      match compareMid a b lo hi (n0 - k) with
      | .lt => pick lo
      | .gt => pick hi
      | .eq => if lo % 2 = 0 then pick lo else pick hi
    else if okLo then pick lo
    else if okHi then pick hi
    else shortestDigits x a b n0 fuel (k + 1)

/-- A run of `n` zero digits. -/
def zeros (n : Nat) : String := String.mk (List.replicate n '0')

/-- Number::toString with radix 10 (ECMA-262, 6.1.6.1.20). -/
def JsNumber.toJsString : JsNumber → String
  | .nan => "NaN"
  | .infinity neg => if neg then "-Infinity" else "Infinity"
  | .finite neg m e =>
    if m = 0 then "0"
    else
      let a : Nat := if 0 ≤ e then m * 2 ^ e.toNat else m
      let b : Nat := if 0 ≤ e then 1 else 2 ^ (-e).toNat
      let d : Int := (decLen a a : Int) - (decLen b b : Int)
      let n0 : Int := if geTenPow a b d then d + 1 else d
      let sn := shortestDigits (.finite false m e) a b n0 17 1
      let digits := (Nat.repr sn.1).toList
      let k : Int := digits.length
      let n : Int := sn.2
      let body : String :=
        if k ≤ n ∧ n ≤ 21 then String.mk digits ++ zeros (n - k).toNat
        else if 0 < n ∧ n ≤ 21 then
          String.mk (digits.take n.toNat) ++ "." ++ String.mk (digits.drop n.toNat)
        else if -6 < n ∧ n ≤ 0 then "0." ++ zeros (-n).toNat ++ String.mk digits
        else
          let ex := n - 1
          let sign := if ex < 0 then "-" else "+"
          let mantissa :=
            if digits.length = 1 then String.mk digits
            else String.mk (digits.take 1) ++ "." ++ String.mk (digits.drop 1)
          mantissa ++ "e" ++ sign ++ Nat.repr ex.natAbs
      if neg then "-" ++ body else body

/-! ## Values -/

/-- A JavaScript value as far as JSON can build one, plus `undefined` (what a read of a
missing property yields). Strings are sequences of Unicode scalar values; an object is
its own properties in insertion order, the first entry for a key being the property. -/
inductive JsVal where
  | undefined
  | null
  | bool (b : Bool)
  | num (n : JsNumber)
  | str (s : String)
  | arr (items : List JsVal)
  | obj (fields : List (String × JsVal))

/-- Wording of the runtime's own error messages, which differs between engines. -/
structure Engine where
  /-- Message of the TypeError for reading property `prop` of `base` (`undefined` or
  `null`), `expr` being the source text of the base expression. -/
  readOfNullish : (base : JsVal) → (expr : String) → (prop : String) → String
  /-- Message of the TypeError thrown when an object cannot be converted to a primitive. -/
  notPrimitive : String

/-- The wording used by V8 (Chrome, Node.js). -/
def v8 : Engine where
  readOfNullish := fun base _ prop =>
    "Cannot read properties of " ++
      (match base with
        | .null => "null"
        | _ => "undefined") ++
      " (reading \x27" ++ prop ++ "\x27)"
  notPrimitive := "Cannot convert object to primitive value"

/-- The property names `generateAINews` reads; `index0` is the index `[0]`. None of them
is defined on `Object.prototype`, `Array.prototype`, `String.prototype`,
`Number.prototype` or `Boolean.prototype`, except `length` and indices as modelled in
`getProp`. -/
inductive Key where
  | candidates | content | parts | text | error | message | length | index0
  deriving DecidableEq

/-- The property key as a string. -/
def Key.name : Key → String
  | .candidates => "candidates"
  | .content => "content"
  | .parts => "parts"
  | .text => "text"
  | .error => "error"
  | .message => "message"
  | .length => "length"
  | .index0 => "0"

/-- Own property `k` of an object, `undefined` when there is none. -/
def lookupField (k : String) : List (String × JsVal) → JsVal
  | [] => .undefined
  | (k', v) :: rest => if k' = k then v else lookupField k rest

/-- Whether the object has an own property `k`. -/
def hasField (k : String) : List (String × JsVal) → Bool
  | [] => false
  | (k', _) :: rest => k' == k || hasField k rest

/-- Length of a string in UTF-16 code units, the value of its `length` property. -/
def utf16Length (s : String) : Nat :=
  (s.toList.map fun c => if c.toNat < 65536 then 1 else 2).sum

/-- The property read `base.key` (or `base[0]`): throws a TypeError on `undefined` and
`null`, and otherwise looks the property up on the value. The first element of a string
is given as its first character (for a character outside the Basic Multilingual Plane
JavaScript gives the leading surrogate alone; either is a string of one element). -/
def getProp (eng : Engine) (expr : String) (base : JsVal) (key : Key) : Except String JsVal :=
  match base with
  | .undefined => .error (eng.readOfNullish base expr key.name)
  | .null => .error (eng.readOfNullish base expr key.name)
  | .bool _ => .ok .undefined
  | .num _ => .ok .undefined
  | .str s =>
    match key with
    | .length => .ok (.num (.ofNat (utf16Length s)))
    | .index0 =>
      match s.toList with
      | [] => .ok .undefined
      | c :: _ => .ok (.str (String.singleton c))
    | _ => .ok .undefined
  | .arr items =>
    match key with
    | .length => .ok (.num (.ofNat items.length))
    | .index0 =>
      match items with
      | [] => .ok .undefined
      | v :: _ => .ok v
    | _ => .ok .undefined
  | .obj fields => .ok (lookupField key.name fields)

/-- ToBoolean. -/
def truthy : JsVal → Bool
  | .undefined => false
  | .null => false
  | .bool b => b
  | .num n => !n.isFalsy
  | .str s => s != ""
  | .arr _ => true
  | .obj _ => true

mutual
/-- ToString. An array is the join of its elements with `,`; an object built by
`JSON.parse` is `[object Object]`, unless an own property `toString` (never callable)
hides `Object.prototype.toString`, in which case the conversion throws a TypeError. -/
def toStr (eng : Engine) : JsVal → Except String String
  | .undefined => .ok "undefined"
  | .null => .ok "null"
  | .bool b => .ok (if b then "true" else "false")
  | .num n => .ok n.toJsString
  | .str s => .ok s
  | .arr items => joinItems eng items
  | .obj fields => if hasField "toString" fields then .error eng.notPrimitive
                   else .ok "[object Object]"
/-- Array.prototype.join with the separator `,`: `undefined` and `null` elements
contribute the empty string. -/
def joinItems (eng : Engine) : List JsVal → Except String String
  | [] => .ok ""
  | [v] => itemStr eng v
  | v :: w :: rest =>
    match itemStr eng v with
    | .error e => .error e
    | .ok a =>
      match joinItems eng (w :: rest) with
      | .error e => .error e
      | .ok b => .ok (a ++ "," ++ b)
/-- One element of a join. -/
def itemStr (eng : Engine) : JsVal → Except String String
  | .undefined => .ok ""
  | .null => .ok ""
  | .bool b => .ok (if b then "true" else "false")
  | .num n => .ok n.toJsString
  | .str s => .ok s
  | .arr items => joinItems eng items
  | .obj fields => if hasField "toString" fields then .error eng.notPrimitive
                   else .ok "[object Object]"
end

/-! ## String to Number -/

/-- StrWhiteSpaceChar: WhiteSpace and LineTerminator code points. -/
def isStrWhiteSpace (c : Char) : Bool :=
  let n := c.toNat
  n == 0x9 || n == 0xA || n == 0xB || n == 0xC || n == 0xD || n == 0x20 || n == 0xA0 ||
  n == 0x1680 || (0x2000 ≤ n && n ≤ 0x200A) || n == 0x2028 || n == 0x2029 ||
  n == 0x202F || n == 0x205F || n == 0x3000 || n == 0xFEFF

/-- Value of a digit character in a radix up to 16, `none` for any other character. -/
def digitValue (radix : Nat) (c : Char) : Option Nat :=
  let n := c.toNat
  let v : Option Nat :=
    if 48 ≤ n ∧ n ≤ 57 then some (n - 48)
    else if 97 ≤ n ∧ n ≤ 102 then some (n - 87)
    else if 65 ≤ n ∧ n ≤ 70 then some (n - 55)
    else none
  match v with
  | some d => if d < radix then some d else none
  | none => none

/-- Value of a non-empty run of digits in the radix, `none` if the run is empty or
holds another character. -/
def digitsValue (radix : Nat) (cs : List Char) : Option Nat :=
  match cs with
  | [] => none
  | _ => cs.foldl (fun acc c =>
      match acc, digitValue radix c with
      | some a, some d => some (a * radix + d)
      | _, _ => none) (some 0)

/-- Value of a possibly empty run of decimal digits. -/
def decimalValue (cs : List Char) : Nat :=
  cs.foldl (fun acc c => acc * 10 + (c.toNat - 48)) 0

/-- ExponentPart_opt at the end of a decimal literal: the exponent it denotes. -/
def parseExponent : List Char → Option Int
  | [] => some 0
  | c :: rest =>
    if c = 'e' ∨ c = 'E' then
      match rest with
      | '+' :: ds => (digitsValue 10 ds).map fun v => (v : Int)
      | '-' :: ds => (digitsValue 10 ds).map fun v => -(v : Int)
      | ds => (digitsValue 10 ds).map fun v => (v : Int)
    else none

/-- StrUnsignedDecimalLiteral. -/
def parseUnsignedDecimal (neg : Bool) (cs : List Char) : Option JsNumber :=
  if cs = "Infinity".toList then some (.infinity neg)
  else
    let ip := cs.takeWhile Char.isDigit
    let r1 := cs.dropWhile Char.isDigit
    let fp := match r1 with
      | '.' :: r => r.takeWhile Char.isDigit
      | _ => []
    let r2 := match r1 with
      | '.' :: r => r.dropWhile Char.isDigit
      | _ => r1
    if ip = [] ∧ fp = [] then none
    else
      match parseExponent r2 with
      | none => none
      | some ex =>
        some (.ofDecimal neg (decimalValue (ip ++ fp)) (ex - (fp.length : Int)))

/-- StrNumericLiteral. -/
def parseStrNumeric (cs : List Char) : Option JsNumber :=
  match cs with
  | '0' :: 'x' :: ds => (digitsValue 16 ds).map fun v => roundRatio false v 1
  | '0' :: 'X' :: ds => (digitsValue 16 ds).map fun v => roundRatio false v 1
  | '0' :: 'o' :: ds => (digitsValue 8 ds).map fun v => roundRatio false v 1
  | '0' :: 'O' :: ds => (digitsValue 8 ds).map fun v => roundRatio false v 1
  | '0' :: 'b' :: ds => (digitsValue 2 ds).map fun v => roundRatio false v 1
  | '0' :: 'B' :: ds => (digitsValue 2 ds).map fun v => roundRatio false v 1
  | '+' :: ds => parseUnsignedDecimal false ds
  | '-' :: ds => parseUnsignedDecimal true ds
  | ds => parseUnsignedDecimal false ds

/-- StringToNumber: white space is trimmed, the empty string is `+0`, and a string that
is not a StrNumericLiteral is `NaN`. -/
def stringToNumber (s : String) : JsNumber :=
  let cs := ((s.toList.dropWhile isStrWhiteSpace).reverse.dropWhile isStrWhiteSpace).reverse
  match cs with
  | [] => .finite false 0 0
  | _ => (parseStrNumeric cs).getD .nan

/-- ToNumber. Arrays and objects are first converted to a string (ToPrimitive with hint
number falls through `valueOf`, which returns the object itself, to `toString`). -/
def toNumber (eng : Engine) : JsVal → Except String JsNumber
  | .undefined => .ok .nan
  | .null => .ok (.finite false 0 0)
  | .bool b => .ok (if b then .finite false 1 0 else .finite false 0 0)
  | .num n => .ok n
  | .str s => .ok (stringToNumber s)
  | v =>
    match toStr eng v with
    | .error e => .error e
    | .ok s => .ok (stringToNumber s)

/-- The comparison `v > 0`. -/
def gtZero (eng : Engine) (v : JsVal) : Except String Bool :=
  match toNumber eng v with
  | .error e => .error e
  | .ok n => .ok n.isPositive

/-! ## JSON.parse

The JSON grammar of ECMA-404 as a pushdown automaton that reads the text one character
at a time, so that parsing is a structural recursion over the text. -/

/-- A container whose closing bracket has not been read yet. -/
inductive Frame where
  /-- An array, with the elements read so far, last first. -/
  | arr (done : List JsVal)
  /-- An object, with the properties read so far and the key awaiting its value. -/
  | obj (fields : List (String × JsVal)) (key : Option String)

/-- What the grammar allows next. -/
inductive Expect where
  | value | valueOrEnd | keyOrEnd | key | colon | commaOrEnd | done
  deriving DecidableEq

/-- The parts of a number literal read so far. -/
structure NumAcc where
  neg : Bool
  mant : Nat
  fracLen : Nat
  expNeg : Bool
  expVal : Nat

/-- Position inside a number literal. -/
inductive NumState where
  | minus | zero | int | dot | frac | e | eSign | exp
  deriving DecidableEq

/-- Position inside the current token. -/
inductive Lex where
  | idle
  /-- Inside `true`, `false` or `null`: the characters still to come and the value. -/
  | word (rest : List Char) (v : JsVal)
  /-- Inside a string: its UTF-16 code units (or whole code points) so far, last first. -/
  | str (acc : List Nat)
  /-- After a backslash. -/
  | esc (acc : List Nat)
  /-- Inside a `\u` escape, after `count` hexadecimal digits of value `value`. -/
  | hex (acc : List Nat) (count value : Nat)
  | number (st : NumState) (acc : NumAcc)

/-- State of the parser. -/
structure Parser where
  stack : List Frame
  expect : Expect
  result : Option JsVal
  lex : Lex

/-- Define or overwrite property `k`: a repeated key keeps its place and takes the
later value. -/
def setField (k : String) (v : JsVal) : List (String × JsVal) → List (String × JsVal)
  | [] => [(k, v)]
  | (k', v') :: rest => if k' = k then (k, v) :: rest else (k', v') :: setField k v rest

/-- A lone surrogate code unit is carried as U+FFFD. -/
def unitChar (u : Nat) : Char :=
  if 0xD800 ≤ u ∧ u ≤ 0xDFFF then Char.ofNat 0xFFFD else Char.ofNat u

/-- The characters of a string given by code units, surrogate pairs combined. -/
def decodeUnits : List Nat → List Char
  | [] => []
  | [u] => [unitChar u]
  | h :: l :: rest =>
    if 0xD800 ≤ h ∧ h ≤ 0xDBFF ∧ 0xDC00 ≤ l ∧ l ≤ 0xDFFF then
      Char.ofNat (0x10000 + (h - 0xD800) * 0x400 + (l - 0xDC00)) :: decodeUnits rest
    else unitChar h :: decodeUnits (l :: rest)

/-- Put a completed value where the enclosing container (or the top level) wants it. -/
def attach (v : JsVal) : List Frame → Option Parser
  | [] => some ⟨[], .done, some v, .idle⟩
  | .arr done :: rest => some ⟨.arr (v :: done) :: rest, .commaOrEnd, none, .idle⟩
  | .obj fields (some k) :: rest =>
    some ⟨.obj (setField k v fields) none :: rest, .commaOrEnd, none, .idle⟩
  | .obj _ none :: _ => none

/-- A complete scalar value has been read. -/
def Parser.value (p : Parser) (v : JsVal) : Option Parser :=
  if p.expect = .value ∨ p.expect = .valueOrEnd then attach v p.stack else none

/-- A complete string has been read: a property key or a value. -/
def Parser.string (p : Parser) (s : String) : Option Parser :=
  if p.expect = .key ∨ p.expect = .keyOrEnd then
    match p.stack with
    | .obj fields none :: rest => some ⟨.obj fields (some s) :: rest, .colon, none, .idle⟩
    | _ => none
  else p.value (.str s)

/-- First character of a token, or white space between tokens. -/
def Parser.start (p : Parser) (c : Char) : Option Parser :=
  if c = ' ' ∨ c = '\t' ∨ c = '\n' ∨ c = '\r' then some p
  else if c = '"' then some { p with lex := .str [] }
  else if c = '[' then
    if p.expect = .value ∨ p.expect = .valueOrEnd then
      some ⟨.arr [] :: p.stack, .valueOrEnd, none, .idle⟩
    else none
  else if c = '{' then
    if p.expect = .value ∨ p.expect = .valueOrEnd then
      some ⟨.obj [] none :: p.stack, .keyOrEnd, none, .idle⟩
    else none
  else if c = ']' then
    if p.expect = .valueOrEnd ∨ p.expect = .commaOrEnd then
      match p.stack with
      | .arr done :: rest => attach (.arr done.reverse) rest
      | _ => none
    else none
  else if c = '}' then
    if p.expect = .keyOrEnd ∨ p.expect = .commaOrEnd then
      match p.stack with
      | .obj fields none :: rest => attach (.obj fields) rest
      | _ => none
    else none
  else if c = ',' then
    if p.expect = .commaOrEnd then
      match p.stack with
      | .arr _ :: _ => some { p with expect := .value }
      | .obj _ _ :: _ => some { p with expect := .key }
      | [] => none
    else none
  else if c = ':' then
    if p.expect = .colon then some { p with expect := .value } else none
  else if c = 't' then some { p with lex := .word ['r', 'u', 'e'] (.bool true) }
  else if c = 'f' then some { p with lex := .word ['a', 'l', 's', 'e'] (.bool false) }
  else if c = 'n' then some { p with lex := .word ['u', 'l', 'l'] .null }
  else if c = '-' then some { p with lex := .number .minus ⟨true, 0, 0, false, 0⟩ }
  else if c = '0' then some { p with lex := .number .zero ⟨false, 0, 0, false, 0⟩ }
  else if c.isDigit then some { p with lex := .number .int ⟨false, c.toNat - 48, 0, false, 0⟩ }
  else none

/-- The Number a complete literal denotes. -/
def NumAcc.value (a : NumAcc) : JsNumber :=
  .ofDecimal a.neg a.mant ((if a.expNeg then -(a.expVal : Int) else (a.expVal : Int)) - a.fracLen)

/-- Whether a number literal may end in this position. -/
def NumState.accepting : NumState → Bool
  | .zero | .int | .frac | .exp => true
  | _ => false

/-- A number literal ends before character `c`, which starts the next token. -/
def Parser.endNumber (p : Parser) (st : NumState) (a : NumAcc) : Option Parser :=
  if st.accepting then p.value (.num a.value) else none

/-- Read one character inside a number literal; `none` when the literal ends before it. -/
def numberStep (st : NumState) (a : NumAcc) (c : Char) : Option (Option (NumState × NumAcc)) :=
  let d := c.toNat - 48
  let isE := c = 'e' ∨ c = 'E'
  match st with
  | .minus =>
    if c = '0' then some (some (.zero, a))
    else if c.isDigit then some (some (.int, { a with mant := d }))
    else none
  | .zero =>
    if c = '.' then some (some (.dot, a))
    else if isE then some (some (.e, a))
    else some none
  | .int =>
    if c.isDigit then some (some (.int, { a with mant := a.mant * 10 + d }))
    else if c = '.' then some (some (.dot, a))
    else if isE then some (some (.e, a))
    else some none
  | .dot =>
    if c.isDigit then
      some (some (.frac, { a with mant := a.mant * 10 + d, fracLen := a.fracLen + 1 }))
    else none
  | .frac =>
    if c.isDigit then
      some (some (.frac, { a with mant := a.mant * 10 + d, fracLen := a.fracLen + 1 }))
    else if isE then some (some (.e, a))
    else some none
  | .e =>
    if c = '+' then some (some (.eSign, a))
    else if c = '-' then some (some (.eSign, { a with expNeg := true }))
    else if c.isDigit then some (some (.exp, { a with expVal := d }))
    else none
  | .eSign =>
    if c.isDigit then some (some (.exp, { a with expVal := d })) else none
  | .exp =>
    if c.isDigit then some (some (.exp, { a with expVal := a.expVal * 10 + d }))
    else some none

/-- Read one character. -/
def Parser.step (p : Parser) (c : Char) : Option Parser :=
  match p.lex with
  | .idle => p.start c
  | .word [] _ => none
  | .word (r :: rest) v =>
    if c = r then
      match rest with
      | [] => p.value v
      | _ => some { p with lex := .word rest v }
    else none
  | .str acc =>
    if c = '"' then p.string (String.mk (decodeUnits acc.reverse))
    else if c = '\\' then some { p with lex := .esc acc }
    else if c.toNat < 0x20 then none
    else some { p with lex := .str (c.toNat :: acc) }
  | .esc acc =>
    if c = '"' then some { p with lex := .str (0x22 :: acc) }
    else if c = '\\' then some { p with lex := .str (0x5C :: acc) }
    else if c = '/' then some { p with lex := .str (0x2F :: acc) }
    else if c = 'b' then some { p with lex := .str (0x8 :: acc) }
    else if c = 'f' then some { p with lex := .str (0xC :: acc) }
    else if c = 'n' then some { p with lex := .str (0xA :: acc) }
    else if c = 'r' then some { p with lex := .str (0xD :: acc) }
    else if c = 't' then some { p with lex := .str (0x9 :: acc) }
    else if c = 'u' then some { p with lex := .hex acc 0 0 }
    else none
  | .hex acc count value =>
    match digitValue 16 c with
    | none => none
    | some d =>
      if count = 3 then some { p with lex := .str ((value * 16 + d) :: acc) }
      else some { p with lex := .hex acc (count + 1) (value * 16 + d) }
  | .number st a =>
    match numberStep st a c with
    | none => none
    | some (some (st', a')) => some { p with lex := .number st' a' }
    | some none =>
      match p.endNumber st a with
      | none => none
      | some p' => p'.start c

/-- Read the whole text. -/
def Parser.run (p : Parser) : List Char → Option Parser
  | [] => some p
  | c :: rest =>
    match p.step c with
    | none => none
    | some p' => p'.run rest

/-- End of the text: a pending number literal ends here, and exactly one value must
have been read. -/
def Parser.finish (p : Parser) : Option JsVal :=
  match p.lex with
  | .idle => if p.expect = .done then p.result else none
  | .number st a =>
    match p.endNumber st a with
    | none => none
    | some p' => if p'.expect = .done then p'.result else none
  | _ => none

/-- The value `JSON.parse(text)` returns, `none` when it throws a SyntaxError. -/
def parseJSON (text : String) : Option JsVal :=
  match Parser.run ⟨[], .value, none, .idle⟩ text.toList with
  | none => none
  | some p => p.finish

/-! ## JSON.stringify on strings and articles -/

/-- The hexadecimal digit of value `d`, in lower case. -/
def hexDigit (d : Nat) : Char := if d < 10 then Char.ofNat (48 + d) else Char.ofNat (87 + d)

/-- QuoteJSONString on one character: how `JSON.stringify` writes it inside a string. -/
def quoteChar (c : Char) : List Char :=
  if c = '"' then ['\\', '"']
  else if c = '\\' then ['\\', '\\']
  else if c.toNat = 8 then ['\\', 'b']
  else if c.toNat = 12 then ['\\', 'f']
  else if c.toNat = 10 then ['\\', 'n']
  else if c.toNat = 13 then ['\\', 'r']
  else if c.toNat = 9 then ['\\', 't']
  else if c.toNat < 32 then
    ['\\', 'u', '0', '0', hexDigit (c.toNat / 16), hexDigit (c.toNat % 16)]
  else [c]

/-- QuoteJSONString on the characters of a string, without the enclosing quotes. -/
def quoteChars : List Char → List Char
  | [] => []
  | c :: rest => quoteChar c ++ quoteChars rest

/-- A string between quotes, as `JSON.stringify` writes it. -/
def quoted (s : String) : List Char := '"' :: (quoteChars s.toList ++ ['"'])

/-- The text `JSON.stringify` gives for an article object with the three properties
`headline`, `body` and `imageUrl`, in this order. -/
def stringifyArticle (headline body imageUrl : String) : String :=
  String.mk ('{' :: (quoted "headline" ++ ':' :: (quoted headline ++ ',' ::
    (quoted "body" ++ ':' :: (quoted body ++ ',' ::
    (quoted "imageUrl" ++ ':' :: (quoted imageUrl ++ ['}'])))))))

/-! ## The component `App` -/

/-- The five `useState` cells the handler reads or writes (lines 6-10). -/
structure State where
  country : String
  newsType : String
  generatedNews : List JsVal
  isLoading : Bool
  errorMessage : String

/-- The values passed to `useState` on mount. -/
def initialState : State := ⟨"USA", "General", [], false, ""⟩

/-- The `option` values of the country select (lines 166-176). -/
def countryOptions : List String :=
  ["USA", "UK", "Canada", "Australia", "Germany", "Japan", "India", "Brazil", "France",
   "China", "UAE"]

/-- The `option` values of the news type select (lines 188-197). -/
def newsTypeOptions : List String :=
  ["General", "Sports", "Politics", "Technology", "Entertainment", "Business", "Health",
   "Science", "World", "Local"]

/-- The setter of `country`, called by the country select (line 164). -/
def setCountry (v : String) (s : State) : State := { s with country := v }

/-- The setter of `newsType`, called by the news type select (line 186). -/
def setNewsType (v : String) (s : State) : State := { s with newsType := v }

/-- The setter of `generatedNews`. -/
def setGeneratedNews (v : List JsVal) (s : State) : State := { s with generatedNews := v }

/-- The setter of `isLoading`. -/
def setIsLoading (v : Bool) (s : State) : State := { s with isLoading := v }

/-- The setter of `errorMessage`. -/
def setErrorMessage (v : String) (s : State) : State := { s with errorMessage := v }

/-- The template literal of line 76. -/
def prompt (s : State) : String :=
  "Generate a concise, interesting news article about " ++ s.newsType ++ " in " ++ s.country ++
  ". The article should have a headline and a body paragraph. Focus on a current or plausible event related to that type and country. Make it sound like a real news report."

/-- What `await response.json()` does: it rejects (the body is not JSON, or the stream
fails) with an error of the given message, or resolves to the parsed body. -/
inductive Body where
  | rejects (message : String)
  | json (v : JsVal)

/-- What the network exchange of lines 102-113 produces: `fetch` rejects with an error of
the given message, or resolves to a response with a status and a body. -/
inductive Exchange where
  | fetchRejects (message : String)
  | response (status : Nat) (body : Body)

/-- The getter `response.ok`: the status is in the range 200-299. -/
def responseOk (status : Nat) : Bool := 200 ≤ status && status ≤ 299

/-- The condition of lines 116-118, evaluated left to right with short-circuit `&&`. -/
def hasContent (eng : Engine) (result : JsVal) : Except String Bool := do
  let candidates ← getProp eng "result" result .candidates
  if !truthy candidates then return false
  let n ← getProp eng "result.candidates" candidates .length
  if !(← gtZero eng n) then return false
  let first ← getProp eng "result.candidates" candidates .index0
  let content ← getProp eng "result.candidates[0]" first .content
  if !truthy content then return false
  let parts ← getProp eng "result.candidates[0].content" content .parts
  if !truthy parts then return false
  let k ← getProp eng "result.candidates[0].content.parts" parts .length
  gtZero eng k

/-- The expression `result.candidates[0].content.parts[0].text` of line 119. -/
def firstText (eng : Engine) (result : JsVal) : Except String JsVal := do
  let candidates ← getProp eng "result" result .candidates
  let first ← getProp eng "result.candidates" candidates .index0
  let content ← getProp eng "result.candidates[0]" first .content
  let parts ← getProp eng "result.candidates[0].content" content .parts
  let part ← getProp eng "result.candidates[0].content.parts" parts .index0
  getProp eng "result.candidates[0].content.parts[0]" part .text

/-- The call `JSON.parse(jsonText)` of line 121: the argument is converted to a string
and parsed. `none` when it throws, be it the TypeError of the conversion or the
SyntaxError of the grammar: the handler of line 123 only logs what it catches. -/
def jsonParse (eng : Engine) (jsonText : JsVal) : Option JsVal :=
  match toStr eng jsonText with
  | .error _ => none
  | .ok text => parseJSON text

/-- Lines 116-129, on the parsed body of a success response. -/
def handleResult (eng : Engine) (result : JsVal) (s : State) : Except String State := do
  if ← hasContent eng result then
    let jsonText ← firstText eng result
    match jsonParse eng jsonText with
    | some parsedNews => return setGeneratedNews [parsedNews] s
    | none => return setErrorMessage "AI generated malformed JSON. Please try again." s
  else
    return setErrorMessage "No content generated by AI. Please try again." s

/-- The `try` block of lines 101-129. `.error m` is a throw of an error whose `message` is
`m`; every throw precedes the first setter call of the block, so it leaves the state as
it was. -/
def tryBlock (eng : Engine) (x : Exchange) (s : State) : Except String State :=
  match x with
  | .fetchRejects message => .error message
  | .response status body =>
    if !responseOk status then
      match body with
      | .rejects message => .error message
      | .json errorData => do
        let error ← getProp eng "errorData" errorData .error
        let message ← getProp eng "errorData.error" error .message
        let shown ← toStr eng (if truthy message then message else .str "Unknown error")
        throw ("API error: " ++ toString status ++ " - " ++ shown)
    else
      match body with
      | .rejects message => .error message
      | .json result => handleResult eng result s

/-- Lines 72-74: what `generateAINews` does before its first `await`. -/
def startGeneration (s : State) : State :=
  setGeneratedNews [] (setErrorMessage "" (setIsLoading true s))

/-- Lines 101-135: what `generateAINews` does once the exchange has produced `x`, on the
state current at that time. -/
def finishGeneration (eng : Engine) (x : Exchange) (s : State) : State :=
  let s' :=
    match tryBlock eng x s with
    | .ok s' => s'
    | .error message =>
      setErrorMessage
        ("Failed to generate news: " ++ message ++ ". Please check console for details.") s
  setIsLoading false s'

/-- A whole run of `generateAINews` from state `s`, the exchange producing `x`. -/
def generateAINews (eng : Engine) (x : Exchange) (s : State) : State :=
  finishGeneration eng x (startGeneration s)

/-! ## Vocabulary of the specification -/

/-- An article as the specification describes it: a headline, a body and an optional
image URL. -/
structure Article where
  headline : String
  body : String
  imageUrl : Option String
  deriving DecidableEq

/-- The article a parsed value encodes: an object whose `headline` and `body` are
strings and whose `imageUrl` is a string or missing. -/
def readArticle : JsVal → Option Article
  | .obj fields =>
    match lookupField "headline" fields, lookupField "body" fields,
      lookupField "imageUrl" fields with
    | .str h, .str b, .str u => some ⟨h, b, some u⟩
    | .str h, .str b, .undefined => some ⟨h, b, none⟩
    | _, _, _ => none
  | _ => none

/-- The value of `candidates[0].content.parts[0].text` in a body of the expected success
shape `{ candidates: [ { content: { parts: [ { text } ] } } ] }`: objects and non-empty
arrays all the way down to the first part, whose `text` may be missing (`undefined`). -/
def successText : JsVal → Option JsVal
  | .obj fields =>
    match lookupField "candidates" fields with
    | .arr (.obj candidate :: _) =>
      match lookupField "content" candidate with
      | .obj content =>
        match lookupField "parts" content with
        | .arr (.obj part :: _) => some (lookupField "text" part)
        | _ => none
      | _ => none
    | _ => none
  | _ => none

/-- A body object in which `candidates` is missing, null or empty, or whose first
candidate is an object with `content` missing or null, or with a content object whose
`parts` is missing, null or empty. -/
def lacksContent : JsVal → Bool
  | .obj fields =>
    match lookupField "candidates" fields with
    | .undefined => true
    | .null => true
    | .arr [] => true
    | .arr (.obj candidate :: _) =>
      match lookupField "content" candidate with
      | .undefined => true
      | .null => true
      | .obj content =>
        match lookupField "parts" content with
        | .undefined => true
        | .null => true
        | .arr [] => true
        | _ => false
      | _ => false
    | _ => false
  | _ => false

/-- The message the server supplies in an error body `{ error: { message } }`, where
`message` is a string or missing; `none` for any other body. -/
def serverMessage : JsVal → Option (Option String)
  | .obj fields =>
    match lookupField "error" fields with
    | .obj error =>
      match lookupField "message" error with
      | .str m => some (some m)
      | .undefined => some none
      | _ => none
    | _ => none
  | _ => none

/-- The body `{ candidates: [ { content: { parts: [ { text } ] } } ] }`. -/
def successBody (text : JsVal) : JsVal :=
  .obj [("candidates", .arr [.obj [("content", .obj [("parts", .arr [.obj [("text", text)]])])]])]

/-- The body `{ error: { message } }`. -/
def errorBody (message : JsVal) : JsVal :=
  .obj [("error", .obj [("message", message)])]

/-- The text shown for the server message: the message itself when there is one and it
is not empty, `Unknown error` otherwise. -/
def shownMessage : Option String → String
  | some m => if m = "" then "Unknown error" else m
  | none => "Unknown error"

/-- The four-way status of the generation lifecycle. -/
inductive GenerationState where
  | idle
  | loading
  | succeeded (article : JsVal)
  | failed (message : String)

/-- The encoding of a status in the cells `(isLoading, errorMessage, generatedNews)`. -/
def GenerationState.cells : GenerationState → Bool × String × List JsVal
  | .idle => (false, "", [])
  | .loading => (true, "", [])
  | .succeeded a => (false, "", [a])
  | .failed m => (false, m, [])

/-- A failure carries a non-empty message. -/
def GenerationState.wellFormed : GenerationState → Prop
  | .failed m => m ≠ ""
  | _ => True

/-- The cells of a component state that encode the status. -/
def State.cells (s : State) : Bool × String × List JsVal :=
  (s.isLoading, s.errorMessage, s.generatedNews)

/-- The component together with the request it may have in flight: `inFlight` is true
from the moment a run of `generateAINews` has sent its request until the run has handled
the outcome. -/
structure Session where
  state : State
  inFlight : Bool

/-- The attribute `disabled` of the trigger button (line 205). -/
def triggerDisabled (s : State) : Bool := s.isLoading

/-- The sessions reached from mount by selection edits and by runs of `generateAINews`
that are triggered only while the button is enabled: a run is its start step and, later,
the step that handles one outcome of the exchange. -/
inductive Reachable (eng : Engine) : Session → Prop where
  | mount : Reachable eng ⟨initialState, false⟩
  | selectCountry (σ : Session) (v : String) :
      Reachable eng σ → v ∈ countryOptions →
      Reachable eng ⟨setCountry v σ.state, σ.inFlight⟩
  | selectNewsType (σ : Session) (v : String) :
      Reachable eng σ → v ∈ newsTypeOptions →
      Reachable eng ⟨setNewsType v σ.state, σ.inFlight⟩
  | start (σ : Session) :
      Reachable eng σ → triggerDisabled σ.state = false →
      Reachable eng ⟨startGeneration σ.state, true⟩
  | finish (σ : Session) (x : Exchange) :
      Reachable eng σ → σ.inFlight = true →
      Reachable eng ⟨finishGeneration eng x σ.state, false⟩

/-- The sentence template of the specification, with its two placeholders. -/
def promptTemplate : String :=
  "Generate a concise, interesting news article about {category} in {country}. The article should have a headline and a body paragraph. Focus on a current or plausible event related to that type and country. Make it sound like a real news report."

/-- Copy the template, writing `category` for each `{category}` and `country` for each
`{country}`; `skip` counts the placeholder characters still to pass over. -/
def fillTemplate (category country : List Char) : Nat → List Char → List Char
  | _, [] => []
  | skip + 1, _ :: rest => fillTemplate category country skip rest
  | 0, c :: rest =>
    if "{category}".toList.isPrefixOf (c :: rest) then
      category ++ fillTemplate category country 9 rest
    else if "{country}".toList.isPrefixOf (c :: rest) then
      country ++ fillTemplate category country 8 rest
    else c :: fillTemplate category country 0 rest

/-- The template with the selection substituted for the placeholders. -/
def substitute (category country : String) : String :=
  String.mk (fillTemplate category.toList country.toList 0 promptTemplate.toList)

/-! ## Auxiliary facts about the runtime model -/


theorem stripTwos_fst_ne_zero (fuel m : Nat) (e : Int) (h : m ≠ 0) :
    (stripTwos fuel m e).1 ≠ 0 := by
  induction fuel generalizing m e with
  | zero => simpa [stripTwos] using h
  | succ k ih =>
    unfold stripTwos
    split
    · apply ih
      omega
    · exact h

theorem bitLen_zero (fuel : Nat) : bitLen fuel 0 = 0 := by
  cases fuel <;> simp [bitLen]

theorem bitLen_pos (fuel n : Nat) (hn : 0 < n) (hf : n ≤ fuel) : 0 < bitLen fuel n := by
  cases fuel with
  | zero => omega
  | succ k =>
    have : n ≠ 0 := by omega
    simp [bitLen, this]

theorem two_pow_bitLen_le (fuel n : Nat) (hn : 0 < n) (hf : n ≤ fuel) :
    2 ^ (bitLen fuel n - 1) ≤ n := by
  induction fuel generalizing n with
  | zero => omega
  | succ k ih =>
    have hn0 : n ≠ 0 := by omega
    simp only [bitLen, hn0, if_false, Nat.add_sub_cancel]
    by_cases h2 : n / 2 = 0
    · rw [h2, bitLen_zero]
      simpa using hn
    · have hpos : 0 < n / 2 := Nat.pos_of_ne_zero h2
      have hle : n / 2 ≤ k := by omega
      have h1 := ih (n / 2) hpos hle
      have h3 := bitLen_pos k (n / 2) hpos hle
      have h4 : bitLen k (n / 2) = (bitLen k (n / 2) - 1) + 1 := by omega
      rw [h4, pow_succ]
      omega

theorem le_roundHalfEven (num den : Nat) : num / den ≤ roundHalfEven num den := by
  unfold roundHalfEven
  simp only
  split
  · exact le_rfl
  · split
    · omega
    · split <;> omega

theorem significand_ne_zero (a : Nat) (u : Int) (ha : 0 < a)
    (hu : u.toNat ≤ bitLen a a - 1) :
    (if 0 ≤ u then roundHalfEven a (1 * 2 ^ u.toNat)
      else roundHalfEven (a * 2 ^ (-u).toNat) 1) ≠ 0 := by
  have hpow := two_pow_bitLen_le a a ha le_rfl
  split
  · intro hm
    have hq := le_roundHalfEven a (1 * 2 ^ u.toNat)
    rw [hm] at hq
    have hq0 := Nat.le_zero.mp hq
    have hp : 0 < 1 * 2 ^ u.toNat := by positivity
    rw [Nat.div_eq_zero_iff hp] at hq0
    have := Nat.pow_le_pow_right (n := 2) (by norm_num) hu
    omega
  · intro hm
    have hq := le_roundHalfEven (a * 2 ^ (-u).toNat) 1
    rw [hm] at hq
    have hp : 0 < 2 ^ (-u).toNat := by positivity
    have : 0 < a * 2 ^ (-u).toNat := Nat.mul_pos ha hp
    simp at hq
    omega

theorem rounded_isPositive (u : Int) (m : Nat) (hm : m ≠ 0) :
    (if 971 < u ∨ (u = 971 ∧ 2 ^ 53 ≤ m) then JsNumber.infinity false
      else JsNumber.normalize false m u).isPositive = true := by
  split
  · rfl
  · unfold JsNumber.normalize
    simp only [hm, if_false, JsNumber.isPositive, Bool.not_false, Bool.true_and, bne_iff_ne,
      ne_eq]
    exact stripTwos_fst_ne_zero _ _ _ hm

theorem roundRatio_isPositive (a : Nat) (ha : 0 < a) :
    (roundRatio false a 1).isPositive = true := by
  have ha0 : a ≠ 0 := by omega
  have hb : bitLen 1 1 = 1 := by decide
  have hlen := bitLen_pos a a ha le_rfl
  unfold roundRatio
  simp only [ha0, if_false, hb]
  apply rounded_isPositive
  apply significand_ne_zero a _ ha
  split <;> omega

theorem gtZero_length (eng : Engine) (n : Nat) (hn : 0 < n) :
    gtZero eng (.num (.ofNat n)) = .ok true := by
  simp [gtZero, toNumber, JsNumber.ofNat, roundRatio_isPositive n hn]

theorem run_append (p : Parser) (xs ys : List Char) :
    p.run (xs ++ ys) = match p.run xs with
      | none => none
      | some q => q.run ys := by
  induction xs generalizing p with
  | nil => simp [Parser.run]
  | cons c rest ih =>
    simp only [List.cons_append, Parser.run]
    cases p.step c with
    | none => rfl
    | some q => exact ih q

theorem hexDigit_value (d : Nat) (h : d < 16) : digitValue 16 (hexDigit d) = some d := by
  interval_cases d <;> decide

theorem run_quoteChar (st : List Frame) (ex : Expect) (res : Option JsVal) (acc : List Nat)
    (c : Char) :
    Parser.run ⟨st, ex, res, .str acc⟩ (quoteChar c) =
      some ⟨st, ex, res, .str (c.toNat :: acc)⟩ := by
  unfold quoteChar
  split_ifs with h1 h2 h3 h4 h5 h6 h7 h8
  · subst h1
    simp [Parser.run, Parser.step]
  · subst h2
    simp [Parser.run, Parser.step]
  · simp [Parser.run, Parser.step, h3]
  · simp [Parser.run, Parser.step, h4]
  · simp [Parser.run, Parser.step, h5]
  · simp [Parser.run, Parser.step, h6]
  · simp [Parser.run, Parser.step, h7]
  · have hd1 := hexDigit_value (c.toNat / 16) (by omega)
    have hd2 := hexDigit_value (c.toNat % 16) (by omega)
    have h0 : digitValue 16 '0' = some 0 := by decide
    simp [Parser.run, Parser.step, hd1, hd2, h0]
    omega
  · simp [Parser.run, Parser.step, h1, h2, h8]

theorem run_quoteChars (st : List Frame) (ex : Expect) (res : Option JsVal) (cs : List Char)
    (acc : List Nat) :
    Parser.run ⟨st, ex, res, .str acc⟩ (quoteChars cs) =
      some ⟨st, ex, res, .str ((cs.map Char.toNat).reverse ++ acc)⟩ := by
  induction cs generalizing acc with
  | nil => simp [quoteChars, Parser.run]
  | cons c rest ih =>
    simp only [quoteChars, run_append, run_quoteChar, ih, List.map_cons, List.reverse_cons,
      List.append_assoc, List.singleton_append]

theorem char_not_surrogate (c : Char) : ¬ (0xD800 ≤ c.toNat ∧ c.toNat ≤ 0xDFFF) := by
  rcases c.valid with h | ⟨h, _⟩
  · intro ⟨h1, _⟩
    have : c.toNat < 0xD800 := h
    omega
  · intro ⟨_, h2⟩
    have : 0xDFFF < c.toNat := h
    omega

theorem unitChar_toNat (c : Char) : unitChar c.toNat = c := by
  simp only [unitChar, char_not_surrogate c, if_false]
  exact Char.ofNat_toNat c

theorem decodeUnits_toNat (cs : List Char) : decodeUnits (cs.map Char.toNat) = cs := by
  induction cs with
  | nil => rfl
  | cons c rest ih =>
    cases rest with
    | nil => simp [decodeUnits, unitChar_toNat]
    | cons d rest' =>
      have hc := char_not_surrogate c
      have hnot : ¬ (0xD800 ≤ c.toNat ∧ c.toNat ≤ 0xDBFF ∧ 0xDC00 ≤ d.toNat ∧
          d.toNat ≤ 0xDFFF) := by
        intro ⟨h1, h2, _, _⟩
        exact hc ⟨h1, by omega⟩
      simp only [List.map_cons, decodeUnits, hnot, if_false, unitChar_toNat]
      simpa using ih

theorem run_quoted (st : List Frame) (ex : Expect) (res : Option JsVal) (s : String) :
    Parser.run ⟨st, ex, res, .idle⟩ (quoted s) =
      Parser.string ⟨st, ex, res, .str (s.toList.map Char.toNat).reverse⟩ s := by
  have h0 : Parser.step ⟨st, ex, res, .idle⟩ '"' = some ⟨st, ex, res, .str []⟩ := by
    simp [Parser.step, Parser.start]
  have h1 := run_quoteChars st ex res s.toList []
  have h2 : Parser.step ⟨st, ex, res, .str (s.toList.map Char.toNat).reverse⟩ '"' =
      Parser.string ⟨st, ex, res, .str (s.toList.map Char.toNat).reverse⟩ s := by
    simp [Parser.step, decodeUnits_toNat]
  simp only [quoted, Parser.run, h0, run_append, h1, List.append_nil, h2]
  cases Parser.string ⟨st, ex, res, .str (s.toList.map Char.toNat).reverse⟩ s <;> rfl

theorem run_cons (p : Parser) (c : Char) (rest : List Char) :
    p.run (c :: rest) = match p.step c with
      | none => none
      | some q => q.run rest := rfl

theorem run_member (st : List Frame) (fields : List (String × JsVal)) (ex : Expect)
    (hex : ex = .key ∨ ex = .keyOrEnd) (k v : String) (rest : List Char) :
    Parser.run ⟨.obj fields none :: st, ex, none, .idle⟩
        (quoted k ++ ':' :: (quoted v ++ rest)) =
      Parser.run ⟨.obj (setField k (.str v) fields) none :: st, .commaOrEnd, none, .idle⟩
        rest := by
  have h1 : Parser.string ⟨.obj fields none :: st, ex, none,
      .str (k.toList.map Char.toNat).reverse⟩ k =
      some ⟨.obj fields (some k) :: st, .colon, none, .idle⟩ := by
    rcases hex with rfl | rfl <;> simp [Parser.string]
  have h2 : Parser.step ⟨.obj fields (some k) :: st, .colon, none, .idle⟩ ':' =
      some ⟨.obj fields (some k) :: st, .value, none, .idle⟩ := by
    simp [Parser.step, Parser.start]
  have h3 : Parser.string ⟨.obj fields (some k) :: st, .value, none,
      .str (v.toList.map Char.toNat).reverse⟩ v =
      some ⟨.obj (setField k (.str v) fields) none :: st, .commaOrEnd, none, .idle⟩ := by
    simp [Parser.string, Parser.value, attach]
  rw [run_append, run_quoted, h1]
  simp only []
  rw [run_cons, h2]
  simp only []
  rw [run_append, run_quoted, h3]

theorem parseJSON_stringifyArticle (headline body imageUrl : String) :
    parseJSON (stringifyArticle headline body imageUrl) =
      some (.obj [("headline", .str headline), ("body", .str body),
        ("imageUrl", .str imageUrl)]) := by
  have h0 : Parser.step ⟨[], .value, none, .idle⟩ '{' =
      some ⟨[.obj [] none], .keyOrEnd, none, .idle⟩ := by
    simp [Parser.step, Parser.start]
  have hcomma : ∀ fields : List (String × JsVal),
      Parser.step ⟨[.obj fields none], .commaOrEnd, none, .idle⟩ ',' =
        some ⟨[.obj fields none], .key, none, .idle⟩ := by
    intro fields
    simp [Parser.step, Parser.start]
  have hclose : ∀ fields : List (String × JsVal),
      Parser.step ⟨[.obj fields none], .commaOrEnd, none, .idle⟩ '}' =
        some ⟨[], .done, some (.obj fields), .idle⟩ := by
    intro fields
    simp [Parser.step, Parser.start, attach]
  unfold parseJSON stringifyArticle
  show (match Parser.run ⟨[], .value, none, .idle⟩ ('{' :: (quoted "headline" ++ ':' ::
    (quoted headline ++ ',' :: (quoted "body" ++ ':' :: (quoted body ++ ',' ::
    (quoted "imageUrl" ++ ':' :: (quoted imageUrl ++ ['}']))))))) with
    | none => none
    | some p => p.finish) = _
  rw [run_cons, h0]
  simp only []
  rw [run_member _ _ _ (Or.inr rfl), run_cons, hcomma]
  simp only []
  rw [run_member _ _ _ (Or.inl rfl), run_cons, hcomma]
  simp only []
  rw [run_member _ _ _ (Or.inl rfl), run_cons, hclose]
  simp [Parser.run, Parser.finish, setField]

theorem content_of_successText (eng : Engine) (result text : JsVal)
    (h : successText result = some text) :
    hasContent eng result = .ok true ∧ firstText eng result = .ok text := by
  unfold successText at h
  split at h
  · split at h
    · split at h
      · split at h
        · simp only [Option.some.injEq] at h
          subst h
          simp [hasContent, firstText, getProp, Key.name, *, truthy, gtZero_length,
            bind, Except.bind, pure, Except.pure]
        · simp at h
      · simp at h
    · simp at h
  · simp at h

/-- A success response of the expected shape is handled by parsing its text. -/
theorem generateAINews_of_successText (eng : Engine) (s : State) (status : Nat)
    (result text : JsVal) (hok : responseOk status = true)
    (htext : successText result = some text) :
    generateAINews eng (.response status (.json result)) s =
      match jsonParse eng text with
      | some v =>
        { country := s.country, newsType := s.newsType, generatedNews := [v],
          isLoading := false, errorMessage := "" }
      | none =>
        { country := s.country, newsType := s.newsType, generatedNews := [],
          isLoading := false,
          errorMessage := "AI generated malformed JSON. Please try again." } := by
  obtain ⟨h1, h2⟩ := content_of_successText eng result text htext
  cases hp : jsonParse eng text <;>
    simp [generateAINews, finishGeneration, tryBlock, handleResult, hok, h1, h2, hp, bind,
      Except.bind, pure, Except.pure, startGeneration, setGeneratedNews, setErrorMessage,
      setIsLoading]

/-- For every article, a success response of the expected shape carrying the text that
`JSON.stringify` gives for it ends the run with exactly that article stored. -/
theorem generateAINews_stringified (eng : Engine) (s : State) (status : Nat)
    (headline body imageUrl : String) (hok : responseOk status = true) :
    generateAINews eng
        (.response status (.json (successBody
          (.str (stringifyArticle headline body imageUrl))))) s =
      { country := s.country, newsType := s.newsType,
        generatedNews := [.obj [("headline", .str headline), ("body", .str body),
          ("imageUrl", .str imageUrl)]],
        isLoading := false, errorMessage := "" } := by
  have h := generateAINews_of_successText eng s status
    (successBody (.str (stringifyArticle headline body imageUrl)))
    (.str (stringifyArticle headline body imageUrl)) hok rfl
  simp only [jsonParse, toStr, parseJSON_stringifyArticle] at h
  exact h

theorem failure_message_ne_empty (message : String) :
    "Failed to generate news: " ++ message ++ ". Please check console for details." ≠ "" := by
  intro h
  have := congrArg String.length h
  simp only [String.length_append] at this
  have h0 : "Failed to generate news: ".length = 25 := by decide
  have h1 : "".length = 0 := rfl
  omega

theorem tryBlock_ok (eng : Engine) (x : Exchange) (s s' : State)
    (h : tryBlock eng x s = .ok s') :
    (∃ v, s' = setGeneratedNews [v] s) ∨
    s' = setErrorMessage "AI generated malformed JSON. Please try again." s ∨
    s' = setErrorMessage "No content generated by AI. Please try again." s := by
  unfold tryBlock at h
  cases x with
  | fetchRejects m => simp at h
  | response status body =>
    cases hok : responseOk status
    · cases body with
      | rejects m => simp [hok] at h
      | json errorData =>
        simp only [hok, bind, Except.bind] at h
        cases h1 : getProp eng "errorData" errorData .error with
        | error e => simp [h1] at h
        | ok v1 =>
          cases h2 : getProp eng "errorData.error" v1 .message with
          | error e => simp [h1, h2] at h
          | ok v2 =>
            cases h3 : toStr eng (if truthy v2 then v2 else .str "Unknown error") with
            | error e => simp [h1, h2, h3] at h
            | ok v3 => simp [h1, h2, h3, throw, throwThe, MonadExceptOf.throw] at h
    · cases body with
      | rejects m => simp [hok] at h
      | json result =>
        simp only [hok, handleResult, bind, Except.bind] at h
        cases h1 : hasContent eng result with
        | error e => simp [h1] at h
        | ok b =>
          cases b with
          | false =>
            simp [h1, pure, Except.pure] at h
            exact Or.inr (Or.inr h.symm)
          | true =>
            cases h2 : firstText eng result with
            | error e => simp [h1, h2] at h
            | ok t =>
              cases h3 : jsonParse eng t with
              | none =>
                simp [h1, h2, h3, pure, Except.pure] at h
                exact Or.inr (Or.inl h.symm)
              | some v =>
                simp [h1, h2, h3, pure, Except.pure] at h
                exact Or.inl ⟨v, h.symm⟩

theorem cells_injective (g g' : GenerationState) (hg : g.wellFormed) (hg' : g'.wellFormed)
    (h : g.cells = g'.cells) : g = g' := by
  cases g <;> cases g' <;>
    simp_all [GenerationState.cells, GenerationState.wellFormed]

theorem finishGeneration_status (eng : Engine) (x : Exchange) (s : State)
    (herr : s.errorMessage = "") (hnews : s.generatedNews = []) :
    ∃ g : GenerationState, g.wellFormed ∧ (finishGeneration eng x s).cells = g.cells := by
  unfold finishGeneration
  cases h : tryBlock eng x s with
  | error m =>
    refine ⟨.failed ("Failed to generate news: " ++ m ++ ". Please check console for details."),
      failure_message_ne_empty m, ?_⟩
    simp [State.cells, GenerationState.cells, setIsLoading, setErrorMessage, hnews]
  | ok s' =>
    rcases tryBlock_ok eng x s s' h with ⟨v, hv⟩ | hv | hv
    · refine ⟨.succeeded v, trivial, ?_⟩
      simp [hv, State.cells, GenerationState.cells, setIsLoading, setGeneratedNews, herr]
    · refine ⟨.failed "AI generated malformed JSON. Please try again.",
        by simp [GenerationState.wellFormed], ?_⟩
      simp [hv, State.cells, GenerationState.cells, setIsLoading, setErrorMessage, hnews]
    · refine ⟨.failed "No content generated by AI. Please try again.",
        by simp [GenerationState.wellFormed], ?_⟩
      simp [hv, State.cells, GenerationState.cells, setIsLoading, setErrorMessage, hnews]

theorem finishGeneration_not_loading (eng : Engine) (x : Exchange) (s : State) :
    (finishGeneration eng x s).isLoading = false := rfl

theorem reachable_has_status (eng : Engine) (σ : Session) (h : Reachable eng σ) :
    σ.inFlight = σ.state.isLoading ∧
    ∃ g : GenerationState, g.wellFormed ∧ σ.state.cells = g.cells := by
  induction h with
  | mount => exact ⟨rfl, .idle, trivial, rfl⟩
  | selectCountry σ v _ _ ih => exact ih
  | selectNewsType σ v _ _ ih => exact ih
  | start σ _ _ _ => exact ⟨rfl, .loading, trivial, rfl⟩
  | finish σ x _ hl ih =>
    obtain ⟨hf, g, hg, hc⟩ := ih
    have hload : σ.state.isLoading = true := by rw [← hf]; exact hl
    have hs : σ.state.errorMessage = "" ∧ σ.state.generatedNews = [] := by
      cases g <;> simp_all [State.cells, GenerationState.cells]
    exact ⟨(finishGeneration_not_loading eng x σ.state).symm,
      finishGeneration_status eng x σ.state hs.1 hs.2⟩

theorem hasContent_of_lacksContent (eng : Engine) (result : JsVal)
    (h : lacksContent result = true) : hasContent eng result = .ok false := by
  have hzero : gtZero eng (.num (.ofNat 0)) = .ok false := rfl
  unfold lacksContent at h
  repeat' (split at h)
  all_goals first
    | (exfalso; simp at h; done)
    | simp_all [hasContent, getProp, Key.name, truthy, gtZero_length, bind, Except.bind, pure,
        Except.pure]

/-! ## The claims -/

/-- C1: a success response whose first part carries a text that parses to a value
encoding an article ends the run in the succeeded status: `generatedNews` is the
one-element list holding the parsed value, which reads back as that very article,
`errorMessage` is empty, `isLoading` is false and the selection is untouched. -/
theorem generateAINews_success (eng : Engine) (s : State) (status : Nat) (result : JsVal)
    (text : String) (v : JsVal) (a : Article)
    (hok : responseOk status = true)
    (htext : successText result = some (.str text))
    (hparse : parseJSON text = some v)
    (harticle : readArticle v = some a) :
    generateAINews eng (.response status (.json result)) s =
      { country := s.country, newsType := s.newsType, generatedNews := [v],
        isLoading := false, errorMessage := "" } ∧
    (generateAINews eng (.response status (.json result)) s).generatedNews.map readArticle =
      [some a] := by
  have h := generateAINews_of_successText eng s status result (.str text) hok htext
  simp only [jsonParse, toStr, hparse] at h
  rw [h]
  exact ⟨rfl, by simp [harticle]⟩

/-- C1 at the text of the specification: H, B, U. -/
theorem generateAINews_success_witness :
    generateAINews v8
        (.response 200 (.json (successBody
          (.str "\x7b\"headline\":\"H\",\"body\":\"B\",\"imageUrl\":\"U\"\x7d")))) initialState =
      { country := "USA", newsType := "General",
        generatedNews := [.obj [("headline", .str "H"), ("body", .str "B"), ("imageUrl", .str "U")]],
        isLoading := false, errorMessage := "" } ∧
    (generateAINews v8
        (.response 200 (.json (successBody
          (.str "\x7b\"headline\":\"H\",\"body\":\"B\",\"imageUrl\":\"U\"\x7d"))))
        initialState).generatedNews.map readArticle = [some ⟨"H", "B", some "U"⟩] :=
  generateAINews_success v8 initialState 200 _ _ _ ⟨"H", "B", some "U"⟩ (by decide) rfl rfl rfl

/-- C2, as the code has it: for a non-success status and an error body
`{ error: { message } }` whose message is a string or is missing, the run ends in the
failed status with the API error text wrapped by the handler of line 132:
`Failed to generate news: API error: {status} - {m}. Please check console for details.`,
where `m` is the server message when present and non-empty and `Unknown error`
otherwise. -/
theorem generateAINews_apiError (eng : Engine) (s : State) (status : Nat) (errorData : JsVal)
    (m : Option String)
    (hok : responseOk status = false)
    (hmsg : serverMessage errorData = some m) :
    generateAINews eng (.response status (.json errorData)) s =
      { country := s.country, newsType := s.newsType, generatedNews := [], isLoading := false,
        errorMessage := "Failed to generate news: " ++
          ("API error: " ++ toString status ++ " - " ++ shownMessage m) ++
          ". Please check console for details." } := by
  unfold serverMessage at hmsg
  split at hmsg
  · split at hmsg
    · split at hmsg
      · simp only [Option.some.injEq] at hmsg
        subst hmsg
        by_cases hm : (‹String› : String) = ""
        all_goals
          simp [generateAINews, finishGeneration, tryBlock, hok, getProp, Key.name, *,
            truthy, toStr, bind, Except.bind, throw, throwThe, MonadExceptOf.throw,
            shownMessage, startGeneration, setGeneratedNews, setErrorMessage, setIsLoading]
      · simp only [Option.some.injEq] at hmsg
        subst hmsg
        simp [generateAINews, finishGeneration, tryBlock, hok, getProp, Key.name, *,
          truthy, toStr, bind, Except.bind, throw, throwThe, MonadExceptOf.throw,
          shownMessage, startGeneration, setGeneratedNews, setErrorMessage, setIsLoading]
      · simp at hmsg
    · simp at hmsg
  · simp at hmsg

/-- C2 (amended) at status 500 with the body `{"error":{"message":"quota exceeded"}}`. -/
theorem generateAINews_apiError_witness :
    generateAINews v8 (.response 500 (.json (errorBody (.str "quota exceeded")))) initialState =
      { country := "USA", newsType := "General", generatedNews := [], isLoading := false,
        errorMessage := "Failed to generate news: " ++
          ("API error: " ++ toString 500 ++ " - " ++ shownMessage (some "quota exceeded")) ++
          ". Please check console for details." } :=
  generateAINews_apiError v8 initialState 500 _ (some "quota exceeded") (by decide) rfl

/-- C2 as stated fails: status 500 with the body `{"error":{"message":"quota exceeded"}}`
leaves the wrapped text in `errorMessage`, not `API error: 500 - quota exceeded`. -/
theorem apiError_message_not_bare :
    (generateAINews v8 (.response 500 (.json (errorBody (.str "quota exceeded"))))
        initialState).errorMessage =
      "Failed to generate news: API error: 500 - quota exceeded. Please check console for details." ∧
    (generateAINews v8 (.response 500 (.json (errorBody (.str "quota exceeded"))))
        initialState).errorMessage ≠ "API error: 500 - quota exceeded" := by
  decide

/-- An error body without an `error` object: the read of `errorData.error.message`
throws before the API error text is built, and the message of that TypeError, in the
wording of the engine, is what `errorMessage` holds. -/
theorem generateAINews_apiError_noErrorObject (eng : Engine) (s : State) (status : Nat)
    (fields : List (String × JsVal))
    (hok : responseOk status = false)
    (hmissing : lookupField "error" fields = .undefined) :
    (generateAINews eng (.response status (.json (.obj fields))) s).errorMessage =
      "Failed to generate news: " ++ eng.readOfNullish .undefined "errorData.error" "message" ++
        ". Please check console for details." := by
  simp [generateAINews, finishGeneration, tryBlock, hok, getProp, Key.name, hmissing, bind,
    Except.bind, setErrorMessage, setIsLoading]

/-- C3: a success response whose first part carries a string that `JSON.parse` rejects
ends the run in the failed status with the fixed message
`AI generated malformed JSON. Please try again.`, an empty `generatedNews` and
`isLoading` false, whatever the parse error says. -/
theorem generateAINews_malformed (eng : Engine) (s : State) (status : Nat) (result : JsVal)
    (text : String)
    (hok : responseOk status = true)
    (htext : successText result = some (.str text))
    (hparse : parseJSON text = none) :
    generateAINews eng (.response status (.json result)) s =
      { country := s.country, newsType := s.newsType, generatedNews := [], isLoading := false,
        errorMessage := "AI generated malformed JSON. Please try again." } := by
  have h := generateAINews_of_successText eng s status result (.str text) hok htext
  simp only [jsonParse, toStr, hparse] at h
  exact h

/-- C3 at the text `not json`. -/
theorem generateAINews_malformed_witness :
    generateAINews v8 (.response 200 (.json (successBody (.str "not json")))) initialState =
      { country := "USA", newsType := "General", generatedNews := [], isLoading := false,
        errorMessage := "AI generated malformed JSON. Please try again." } :=
  generateAINews_malformed v8 initialState 200 _ "not json" (by decide) rfl rfl

/-- C4: a success response whose body has `candidates` missing or empty, or a first
candidate without `content`, or a content without `parts` or with an empty `parts`,
ends the run in the failed status with the fixed message
`No content generated by AI. Please try again.`, an empty `generatedNews` and
`isLoading` false. -/
theorem generateAINews_noContent (eng : Engine) (s : State) (status : Nat) (result : JsVal)
    (hok : responseOk status = true)
    (hshape : lacksContent result = true) :
    generateAINews eng (.response status (.json result)) s =
      { country := s.country, newsType := s.newsType, generatedNews := [], isLoading := false,
        errorMessage := "No content generated by AI. Please try again." } := by
  have h := hasContent_of_lacksContent eng result hshape
  simp [generateAINews, finishGeneration, tryBlock, handleResult, hok, h, bind, Except.bind,
    pure, Except.pure, startGeneration, setGeneratedNews, setErrorMessage, setIsLoading]

/-- C4 at the body `{"candidates":[]}`. -/
theorem generateAINews_noContent_witness :
    generateAINews v8 (.response 200 (.json (.obj [("candidates", .arr [])]))) initialState =
      { country := "USA", newsType := "General", generatedNews := [], isLoading := false,
        errorMessage := "No content generated by AI. Please try again." } :=
  generateAINews_noContent v8 initialState 200 _ (by decide) rfl

/-- C5, as the code has it: when the first part exists and its `text` is missing or is
the empty string, the guard of lines 116-118 passes, `JSON.parse` throws, and the run
ends in the failed status with `AI generated malformed JSON. Please try again.`. -/
theorem generateAINews_emptyText (eng : Engine) (s : State) (status : Nat)
    (result text : JsVal)
    (hok : responseOk status = true)
    (htext : successText result = some text)
    (hempty : text = .undefined ∨ text = .str "") :
    generateAINews eng (.response status (.json result)) s =
      { country := s.country, newsType := s.newsType, generatedNews := [], isLoading := false,
        errorMessage := "AI generated malformed JSON. Please try again." } := by
  have h := generateAINews_of_successText eng s status result text hok htext
  have h1 : parseJSON "undefined" = none := rfl
  have h2 : parseJSON "" = none := rfl
  rcases hempty with rfl | rfl
  · simp only [jsonParse, toStr, h1] at h
    exact h
  · simp only [jsonParse, toStr, h2] at h
    exact h

/-- C5 (amended) at a first part `{}` that has no `text`. -/
theorem generateAINews_emptyText_witness :
    generateAINews v8
        (.response 200 (.json (.obj [("candidates",
          .arr [.obj [("content", .obj [("parts", .arr [.obj []])])]])]))) initialState =
      { country := "USA", newsType := "General", generatedNews := [], isLoading := false,
        errorMessage := "AI generated malformed JSON. Please try again." } :=
  generateAINews_emptyText v8 initialState 200 _ .undefined (by decide) rfl (Or.inl rfl)

/-- C5 as stated fails: a first part whose `text` is the empty string gives the
malformed-JSON message, not `No content generated by AI. Please try again.`. -/
theorem emptyText_not_noContent :
    (generateAINews v8 (.response 200 (.json (successBody (.str ""))))
        initialState).errorMessage = "AI generated malformed JSON. Please try again." ∧
    (generateAINews v8 (.response 200 (.json (successBody (.str ""))))
        initialState).errorMessage ≠ "No content generated by AI. Please try again." := by
  decide

/-- C6, as the code has it: the text is accepted whenever it is valid JSON, with no
check against the article schema. For a success response whose first part carries a
string that `JSON.parse` accepts, whatever value it denotes, the run ends with
`generatedNews` holding exactly that value, an empty `errorMessage` and `isLoading`
false. -/
theorem generateAINews_anyJson (eng : Engine) (s : State) (status : Nat) (result : JsVal)
    (text : String) (v : JsVal)
    (hok : responseOk status = true)
    (htext : successText result = some (.str text))
    (hparse : parseJSON text = some v) :
    generateAINews eng (.response status (.json result)) s =
      { country := s.country, newsType := s.newsType, generatedNews := [v], isLoading := false,
        errorMessage := "" } := by
  have h := generateAINews_of_successText eng s status result (.str text) hok htext
  simp only [jsonParse, toStr, hparse] at h
  exact h

/-- C6 (amended) at the text `[]`. -/
theorem generateAINews_anyJson_witness :
    generateAINews v8 (.response 200 (.json (successBody (.str "[]")))) initialState =
      { country := "USA", newsType := "General", generatedNews := [.arr []],
        isLoading := false, errorMessage := "" } :=
  generateAINews_anyJson v8 initialState 200 _ "[]" _ (by decide) rfl rfl

/-- C6 as stated fails: the valid JSON texts `null`, `42`, `[]` and `{"foo":1}`, none of
which is an article, are each stored in `generatedNews`, and `errorMessage` stays empty
instead of taking the malformed-JSON message. -/
theorem nonArticle_json_is_stored :
    ((generateAINews v8 (.response 200 (.json (successBody (.str "null"))))
        initialState).generatedNews = [.null] ∧
     (generateAINews v8 (.response 200 (.json (successBody (.str "null"))))
        initialState).errorMessage = "") ∧
    ((generateAINews v8 (.response 200 (.json (successBody (.str "42"))))
        initialState).generatedNews = [.num (.ofNat 42)] ∧
     (generateAINews v8 (.response 200 (.json (successBody (.str "42"))))
        initialState).errorMessage = "") ∧
    ((generateAINews v8 (.response 200 (.json (successBody (.str "[]"))))
        initialState).generatedNews = [.arr []] ∧
     (generateAINews v8 (.response 200 (.json (successBody (.str "[]"))))
        initialState).errorMessage = "") ∧
    ((generateAINews v8 (.response 200 (.json (successBody (.str "\x7b\"foo\":1\x7d"))))
        initialState).generatedNews = [.obj [("foo", .num (.ofNat 1))]] ∧
     (generateAINews v8 (.response 200 (.json (successBody (.str "\x7b\"foo\":1\x7d"))))
        initialState).errorMessage = "") ∧
    (readArticle .null = none ∧ readArticle (.num (.ofNat 42)) = none ∧
      readArticle (.arr []) = none ∧ readArticle (.obj [("foo", .num (.ofNat 1))]) = none) ∧
    (generateAINews v8 (.response 200 (.json (successBody (.str "null"))))
        initialState).errorMessage ≠ "AI generated malformed JSON. Please try again." :=
  ⟨⟨rfl, rfl⟩, ⟨rfl, rfl⟩, ⟨rfl, rfl⟩, ⟨rfl, rfl⟩, ⟨rfl, rfl, rfl, rfl⟩, by decide⟩

/-- C7: whatever the exchange produces (a rejected `fetch`, a non-success status, a body
that cannot be read, a success with no content, with unparseable text or with a parsed
value) and whatever the state before, `isLoading` is false once `generateAINews` has
handled it, so the trigger is enabled again. -/
theorem generateAINews_clears_loading (eng : Engine) (x : Exchange) (s : State) :
    (generateAINews eng x s).isLoading = false ∧
    triggerDisabled (generateAINews eng x s) = false ∧
    (finishGeneration eng x s).isLoading = false :=
  ⟨rfl, rfl, rfl⟩

/-- C8: from every prior state, the first step of `generateAINews` yields
`isLoading = true`, `errorMessage = ""` and `generatedNews = []`, and leaves `country`
and `newsType` as they were. -/
theorem startGeneration_loading (s : State) :
    startGeneration s =
      { country := s.country, newsType := s.newsType, generatedNews := [], isLoading := true,
        errorMessage := "" } :=
  rfl

/-- C9: every reachable state encodes exactly one of the four statuses idle, loading,
succeeded and failed (with a non-empty message), and its `generatedNews` has length 0
or 1. -/
theorem reachable_status (eng : Engine) (σ : Session) (h : Reachable eng σ) :
    (∃! g : GenerationState, g.wellFormed ∧ σ.state.cells = g.cells) ∧
    σ.state.generatedNews.length ≤ 1 := by
  obtain ⟨_, g, hg, hc⟩ := reachable_has_status eng σ h
  refine ⟨⟨g, ⟨hg, hc⟩, ?_⟩, ?_⟩
  · rintro g' ⟨hg', hc'⟩
    exact cells_injective g' g hg' hg (hc'.symm.trans hc)
  · cases g <;> simp_all [State.cells, GenerationState.cells]

/-- C9 at the session after one run whose `fetch` was rejected. -/
theorem reachable_status_witness :
    (∃! g : GenerationState, g.wellFormed ∧
      (finishGeneration v8 (.fetchRejects "Failed to fetch")
        (startGeneration initialState)).cells = g.cells) ∧
    (finishGeneration v8 (.fetchRejects "Failed to fetch")
      (startGeneration initialState)).generatedNews.length ≤ 1 :=
  reachable_status v8
    ⟨finishGeneration v8 (.fetchRejects "Failed to fetch") (startGeneration initialState), false⟩
    (Reachable.finish ⟨startGeneration initialState, true⟩ (.fetchRejects "Failed to fetch")
      (Reachable.start ⟨initialState, false⟩ Reachable.mount rfl) rfl)

set_option maxRecDepth 100000 in
theorem substitute_offered :
    ∀ c ∈ countryOptions, ∀ t ∈ newsTypeOptions,
      substitute t c = prompt ⟨c, t, [], false, ""⟩ := by
  decide

/-- C10: for every offered selection the prompt is the template of the specification
with `{category}` replaced by `newsType` and `{country}` by `country`; it is the
concatenation of a fixed prefix, `newsType`, ` in `, `country` and a fixed suffix. -/
theorem prompt_template (s : State)
    (hc : s.country ∈ countryOptions) (ht : s.newsType ∈ newsTypeOptions) :
    prompt s = substitute s.newsType s.country ∧
    prompt s =
      "Generate a concise, interesting news article about " ++ s.newsType ++ " in " ++
        s.country ++
        ". The article should have a headline and a body paragraph. Focus on a current or plausible event related to that type and country. Make it sound like a real news report." :=
  ⟨(substitute_offered s.country hc s.newsType ht).symm, rfl⟩

/-- C10 at the default selection, General in USA. -/
theorem prompt_template_witness :
    prompt initialState = substitute "General" "USA" ∧
    prompt initialState =
      "Generate a concise, interesting news article about " ++ "General" ++ " in " ++ "USA" ++
        ". The article should have a headline and a body paragraph. Focus on a current or plausible event related to that type and country. Make it sound like a real news report." :=
  prompt_template initialState (by decide) (by decide)

end NewsApp
